import Mathlib

/-!
# OST-ShotMan — shallow embedding and verification

Embedding of the versioned-file lifecycle manager of OST-ShotMan:
`src/core.py` (shot repository and filename codec), the custom-metadata
store and the listing filter of `src/shotman.py`, and the argument
dispatch of `src/cli.py`.

The shot directory is modelled as an explicit state: a flag recording
whether the directory exists on disk, plus an association list from
filename to file bytes whose list order is the filesystem-native
(`os.listdir`) order.  All operations of `core.py` are scoped to that
one directory, so paths are modelled by the filename component alone.
Python's `\d` is modelled as an ASCII decimal digit.
-/

namespace ShotMan

/-- File contents, as a byte sequence. -/
abbrev Bytes := List Nat

/-- The state of the shot directory: whether the directory itself exists,
and the files in it (name, bytes), in filesystem-native listing order. -/
structure ShotDir where
  dirExists : Bool
  files : List (String × Bytes)
deriving Repr, DecidableEq

/-- core.py line 7: reserved metadata subdirectory name. -/
def CUSTOM_METADATA_SUBDIR : String := "_custom_meta"

/-- Overwrite-or-insert into an association list (model of writing a file
at a path: an existing entry is replaced in place, a new one appended). -/
def setAssoc {α : Type} (k : String) (v : α) : List (String × α) → List (String × α)
  | [] => [(k, v)]
  | (k₂, v₂) :: rest => if k₂ = k then (k, v) :: rest else (k₂, v₂) :: setAssoc k v rest

/-! ## Filename codec (core.py line 64)

`re.match(r"^(.*)_v(\d{2})\.blend$", original_filename)`: the regex is
anchored at both ends and everything after the greedy `(.*)` group has
fixed length 10 (`_v`, two digits, `.blend`), so a string matches iff its
last 10 characters have that shape, and then group 1 is the remaining
prefix and group 2 the two digits. -/

/-- Parse a filename against `^(.*)_v(\d{2})\.blend$`; `some (base, version)`
on a match (group 1, `int` of group 2), `none` otherwise. -/
def parseShot (s : String) : Option (String × Nat) :=
  match s.data.drop (s.data.length - 10) with
  | ['_', 'v', d₁, d₂, '.', 'b', 'l', 'e', 'n', 'd'] =>
    if d₁.isDigit && d₂.isDigit then
      some (⟨s.data.take (s.data.length - 10)⟩, (d₁.toNat - 48) * 10 + (d₂.toNat - 48))
    else none
  | _ => none

/-- Python `"{:02d}".format n`: decimal rendering zero-padded to width 2. -/
def pad2 (n : Nat) : String :=
  if n < 10 then "0" ++ toString n else toString n

/-- core.py line 71: `f"{base_name}_v{next_version:02d}.blend"`. -/
def fmtShot (base : String) (v : Nat) : String :=
  base ++ "_v" ++ pad2 v ++ ".blend"

/-! ## Python string primitives

Python compares strings lexicographically by code point, and `sorted`
is an ascending stable sort under that order.  These are modelled over
`String.data` (the code-point sequence); `str.lower` is modelled on the
ASCII range, which covers every character the program manipulates. -/

/-- Python `<` on code-point sequences: strict lexicographic order. -/
def lexLt : List Nat → List Nat → Bool
  | [], [] => false
  | [], _ :: _ => true
  | _ :: _, [] => false
  | a :: as, b :: bs => a < b || (a == b && lexLt as bs)

/-- Python `<` on strings. -/
def strLt (s t : String) : Bool :=
  lexLt (s.data.map Char.toNat) (t.data.map Char.toNat)

/-- Python `<=` on strings. -/
def strLe (s t : String) : Bool := !(strLt t s)

/-- Python `str.endswith`. -/
def strEndsWith (s suffix : String) : Bool := suffix.data.isSuffixOf s.data

/-- Python `str.startswith`. -/
def strStartsWith (s pre : String) : Bool := pre.data.isPrefixOf s.data

/-- Python `str.lower` (ASCII range). -/
def pyLower (s : String) : String := ⟨s.data.map Char.toLower⟩

/-- One step of insertion under Python's `<`: place `x` before the first
element it is strictly less than. -/
def sortInsert (x : String) : List String → List String
  | [] => [x]
  | y :: ys => if strLt x y then x :: y :: ys else y :: sortInsert x ys

/-- Python `sorted`: ascending sort under code-point `<` (insertion sort;
extensionally the same list, since elements comparing equal are equal
strings). -/
def pySorted : List String → List String
  | [] => []
  | x :: xs => sortInsert x (pySorted xs)

/-! ## Shot repository (core.py) -/

/-- core.py lines 9-14: `list_shots`.  Missing directory gives `[]`;
otherwise the `.blend` entries not starting with `cam_template_` are
collected from the native listing and returned through Python's
`sorted`. -/
def list_shots (fs : ShotDir) : List String :=
  if fs.dirExists = false then []
  else
    let blend_files := (fs.files.map Prod.fst).filter
      (fun f => strEndsWith f ".blend" && !(strStartsWith f "cam_template_"))
    pySorted blend_files

/-- Errors raised by the repository operations modelled here. -/
inductive RepoError where
  | invalidName
  | sourceMissing
  | targetExists
  | alreadyExists
deriving Repr, DecidableEq

/-- core.py line 28: the placeholder payload written by `create_new_shot`. -/
def PLACEHOLDER : Bytes := "BLENDER_FILE_PLACEHOLDER".data.map Char.toNat

/-- core.py lines 16-31: `create_new_shot`.  `os.makedirs(..., exist_ok=True)`
first (so the directory exists from here on, even on failure), then
`FileExistsError` if `<base>_v01.blend` is present, else the placeholder
file is written and the filename returned. -/
def create_new_shot (base_name : String) (fs : ShotDir) :
    Except RepoError String × ShotDir :=
  let fs₁ : ShotDir := { fs with dirExists := true }
  let filename := base_name ++ "_v01.blend"
  match fs₁.files.lookup filename with
  | some _ => (.error .alreadyExists, fs₁)
  | none => (.ok filename, { fs₁ with files := fs₁.files ++ [(filename, PLACEHOLDER)] })

/-- core.py lines 62-85: `duplicate_shot`.  Pattern check first
(`ValueError` = `invalidName`), then `next_version = current + 1` and the
new name; `FileNotFoundError` if the source is absent, `FileExistsError`
if the target is present, else `shutil.copy2` of the bytes. -/
def duplicate_shot (original_filename : String) (fs : ShotDir) :
    Except RepoError String × ShotDir :=
  match parseShot original_filename with
  | none => (.error .invalidName, fs)
  | some (base_name, current_version) =>
    let new_filename := fmtShot base_name (current_version + 1)
    match fs.files.lookup original_filename with
    | none => (.error .sourceMissing, fs)
    | some bytes =>
      match fs.files.lookup new_filename with
      | some _ => (.error .targetExists, fs)
      | none => (.ok new_filename, { fs with files := fs.files ++ [(new_filename, bytes)] })

/-- core.py lines 88-96: `delete_shot`. -/
def delete_shot (filename : String) (fs : ShotDir) :
    Except RepoError Unit × ShotDir :=
  match fs.files.lookup filename with
  | none => (.error .sourceMissing, fs)
  | some _ => (.ok (), { fs with files := fs.files.filter (fun p => p.1 ≠ filename) })

/-! ## Custom metadata store (shotman.py lines 734-778)

A metadata record is a JSON object; every field exercised by the claims
is string-valued, so a record is an association list from field name to
string value (a Python `dict`, which `json.dump`/`json.load` round-trip
exactly).  The backing store maps a path inside the shot directory to a
file content that is either a well-formed JSON document or malformed. -/

/-- A metadata record: JSON object with string values. -/
abbrev Record := List (String × String)

/-- Content of a metadata backing file: a JSON document, or bytes that
`json.load` rejects with `JSONDecodeError`. -/
inductive MetaContent where
  | doc (r : Record)
  | malformed
deriving Repr, DecidableEq

/-- The metadata backing store: path → file content. -/
structure MetaStore where
  files : List (String × MetaContent)
deriving Repr, DecidableEq

/-- `os.path.splitext(s)[0]`: strip the extension at the last dot, unless
every character before that dot is itself a dot (CPython's rule; our keys
contain no path separators). -/
def splitextBase (s : String) : String :=
  let cs := s.data
  if cs.contains '.' then
    let sepIdx := cs.length - 1 - (cs.reverse.indexOf '.')
    if (cs.take sepIdx).any (fun c => c ≠ '.') then ⟨cs.take sepIdx⟩ else s
  else s

/-- shotman.py lines 734-737: `_get_custom_metadata_path`, relative to the
shot directory. -/
def custom_metadata_path (filename : String) : String :=
  CUSTOM_METADATA_SUBDIR ++ "/" ++ splitextBase filename ++ ".json"

/-- shotman.py line 748: the sentinel returned for malformed content. -/
def corruptSentinel : Record := [("error", "Corrupted custom metadata file.")]

/-- shotman.py lines 739-752: `_load_custom_metadata`.  Missing backing
file gives `{}`; `json.load` failure gives the corrupt sentinel. -/
def load_custom_metadata (st : MetaStore) (filename : String) : Record :=
  match st.files.lookup (custom_metadata_path filename) with
  | none => []
  | some (.doc r) => r
  | some .malformed => corruptSentinel

/-- shotman.py lines 754-765: `_save_custom_metadata`, `json.dump` of the
record over the backing file. -/
def save_custom_metadata (st : MetaStore) (filename : String) (data : Record) :
    MetaStore :=
  { files := setAssoc (custom_metadata_path filename) (.doc data) st.files }

/-- shotman.py line 789: `if "error" in current_meta` — the corrupt-metadata
test applied by `edit_custom_metadata_for_selected` before opening the
editor; `in` on a `dict` tests key membership. -/
def metaHasErrorKey (r : Record) : Bool :=
  (r.lookup "error").isSome

/-! ## Listing filter (shotman.py lines 302-315) -/

/-- Python `needle in hay` on lists of characters: substring containment. -/
def hasSubstring (needle : List Char) : List Char → Bool
  | [] => needle.isEmpty
  | c :: rest => needle.isPrefixOf (c :: rest) || hasSubstring needle rest

/-- The loop of `_filter_shots` (shotman.py lines 305-310): collect, in
order, the shots whose lowercased name contains `search_term`. -/
def filterLoop (search_term : String) : List String → List String
  | [] => []
  | shot_name :: rest =>
    if hasSubstring search_term.data (pyLower shot_name).data then
      shot_name :: filterLoop search_term rest
    else filterLoop search_term rest

/-- shotman.py lines 302-310: the filtering stage of `_filter_shots`; the
search term is lowercased once (line 304), then matched as a substring of
each lowercased shot name. -/
def filter_shots (all_shots : List String) (raw_term : String) : List String :=
  filterLoop (pyLower raw_term) all_shots

/-! ## CLI dispatch (cli.py lines 13-23)

`cli.py` calls each core function with only the value parsed from the
command line; the functions in `core.py` each declare `shot_directory` as
an additional required positional parameter.  A Python call executes the
callee's body only when every required positional parameter is supplied;
otherwise it raises `TypeError` at the call site. -/

/-- Required positional parameter count of each core.py function
(core.py lines 9, 16, 62, 88). -/
def coreRequiredParams : String → Nat
  | "create_new_shot" => 2
  | "list_shots" => 1
  | "duplicate_shot" => 2
  | "delete_shot" => 2
  | _ => 0

/-- Positional argument count at each cli.py call site (lines 14, 17, 20, 23). -/
def cliSuppliedArgs : String → Nat
  | "create_new_shot" => 1
  | "list_shots" => 0
  | "duplicate_shot" => 1
  | "delete_shot" => 1
  | _ => 0

/-- A Python call raises `TypeError` before running the callee's body when
it supplies fewer positional arguments than the callee requires. -/
def callRaisesTypeError (f : String) : Bool :=
  cliSuppliedArgs f < coreRequiredParams f

/-! ## Order lemmas for `pySorted` -/

theorem lexLt_irrefl : ∀ a : List Nat, lexLt a a = false
  | [] => rfl
  | _ :: as => by simp [lexLt, lexLt_irrefl as]

theorem lexLt_trans : ∀ a b c : List Nat,
    lexLt a b = true → lexLt b c = true → lexLt a c = true
  | [], _ :: _, _ :: _, _, _ => rfl
  | a :: as, b :: bs, c :: cs, hab, hbc => by
    simp only [lexLt, Bool.or_eq_true, Bool.and_eq_true, beq_iff_eq,
      decide_eq_true_eq] at *
    rcases hab with h₁ | ⟨h₁, h₁t⟩ <;> rcases hbc with h₂ | ⟨h₂, h₂t⟩
    · exact Or.inl (Nat.lt_trans h₁ h₂)
    · exact Or.inl (h₂ ▸ h₁)
    · exact Or.inl (h₁ ▸ h₂)
    · exact Or.inr ⟨h₁.trans h₂, lexLt_trans as bs cs h₁t h₂t⟩

theorem lexLt_connex : ∀ a b : List Nat,
    lexLt a b = false → lexLt b a = false → a = b
  | [], [], _, _ => rfl
  | [], _ :: _, hab, _ => by simp [lexLt] at hab
  | _ :: _, [], _, hba => by simp [lexLt] at hba
  | a :: as, b :: bs, hab, hba => by
    simp only [lexLt, Bool.or_eq_false_iff, Bool.and_eq_false_iff,
      beq_eq_false_iff_ne, ne_eq, decide_eq_false_iff_not] at hab hba
    obtain ⟨hab₁, hab₂⟩ := hab
    obtain ⟨hba₁, hba₂⟩ := hba
    have heq : a = b := Nat.le_antisymm (Nat.not_lt.mp hba₁) (Nat.not_lt.mp hab₁)
    subst heq
    rcases hab₂ with h | h
    · exact absurd rfl h
    · rcases hba₂ with h₂ | h₂
      · exact absurd rfl h₂
      · exact congrArg (a :: ·) (lexLt_connex as bs h h₂)

theorem lexLt_asymm {a b : List Nat} (h : lexLt a b = true) : lexLt b a = false := by
  by_contra hba
  have hba := Bool.of_not_eq_false hba
  have := lexLt_trans a b a h hba
  rw [lexLt_irrefl] at this
  exact Bool.false_ne_true this

theorem strLe_trans {a b c : String} (hab : strLe a b = true) (hbc : strLe b c = true) :
    strLe a c = true := by
  unfold strLe strLt at *
  rw [Bool.not_eq_true'] at hab hbc ⊢
  by_contra hca'
  have hca := Bool.of_not_eq_false hca'
  rcases hcb : lexLt (c.data.map Char.toNat) (b.data.map Char.toNat) with _ | _
  · rcases hbc₂ : lexLt (b.data.map Char.toNat) (c.data.map Char.toNat) with _ | _
    · have hBC := lexLt_connex _ _ hbc₂ hcb
      rw [hBC] at hab
      simp [hab] at hca
    · have hBA := lexLt_trans _ _ _ hbc₂ hca
      simp [hBA] at hab
  · simp [hcb] at hbc

theorem strLe_total (a b : String) : strLe a b = true ∨ strLe b a = true := by
  unfold strLe strLt
  rcases h : lexLt (b.data.map Char.toNat) (a.data.map Char.toNat) with _ | _
  · exact Or.inl (by simp [h])
  · exact Or.inr (by simp [lexLt_asymm h])

theorem strLt_strLe {a b : String} (h : strLt a b = true) : strLe a b = true := by
  unfold strLe
  unfold strLt at h ⊢
  simp [lexLt_asymm h]

theorem strLe_of_not_strLt {a b : String} (h : strLt a b = false) : strLe b a = true := by
  simp [strLe, h]

/-- `strLe` as ordering relation for sortedness statements. -/
def strLePred (a b : String) : Prop := strLe a b = true

theorem sortInsert_perm (x : String) : ∀ l, (sortInsert x l).Perm (x :: l)
  | [] => List.Perm.refl _
  | y :: ys => by
    unfold sortInsert
    rcases h : strLt x y with _ | _
    · simp only [Bool.false_eq_true, if_false]
      exact ((sortInsert_perm x ys).cons y).trans (List.Perm.swap x y ys)
    · simp only [if_true]
      exact List.Perm.refl _

theorem sorted_sortInsert (x : String) :
    ∀ l, List.Sorted strLePred l → List.Sorted strLePred (sortInsert x l)
  | [], _ => by simp [sortInsert, List.sorted_singleton]
  | y :: ys, h => by
    obtain ⟨hy, hys⟩ := List.sorted_cons.mp h
    unfold sortInsert
    rcases hxy : strLt x y with _ | _
    · simp only [Bool.false_eq_true, if_false]
      refine List.sorted_cons.mpr ⟨?_, sorted_sortInsert x ys hys⟩
      intro b hb
      rcases List.mem_cons.mp ((sortInsert_perm x ys).mem_iff.mp hb) with hbx | hbys
      · exact hbx ▸ strLe_of_not_strLt hxy
      · exact hy b hbys
    · simp only [if_true]
      refine List.sorted_cons.mpr ⟨?_, h⟩
      intro b hb
      rcases List.mem_cons.mp hb with hby | hbys
      · exact hby ▸ strLt_strLe hxy
      · exact strLe_trans (strLt_strLe hxy) (hy b hbys)

theorem pySorted_perm : ∀ l, (pySorted l).Perm l
  | [] => List.Perm.refl _
  | x :: xs =>
    (sortInsert_perm x (pySorted xs)).trans ((pySorted_perm xs).cons x)

theorem pySorted_sorted : ∀ l, List.Sorted strLePred (pySorted l)
  | [] => List.sorted_nil
  | x :: xs => sorted_sortInsert x (pySorted xs) (pySorted_sorted xs)

/-! ## Association list lemmas -/

theorem lookup_append_self {α : Type} (k : String) (v : α) :
    ∀ l : List (String × α), l.lookup k = none → (l ++ [(k, v)]).lookup k = some v
  | [], _ => by simp [List.lookup]
  | (k₂, v₂) :: t, h => by
    rw [List.lookup_cons] at h
    rcases hk : k == k₂ with _ | _
    · rw [hk] at h
      simpa [List.lookup_cons, hk] using lookup_append_self k v t h
    · rw [hk] at h
      exact absurd h (by simp)

theorem lookup_append_other {α : Type} (k k₂ : String) (v w : α) :
    ∀ l : List (String × α), l.lookup k = some w → (l ++ [(k₂, v)]).lookup k = some w
  | [], h => by simp [List.lookup] at h
  | (k₃, v₃) :: t, h => by
    rw [List.lookup_cons] at h
    rcases hk : k == k₃ with _ | _
    · rw [hk] at h
      simpa [List.lookup_cons, hk] using lookup_append_other k k₂ v w t h
    · rw [hk] at h
      have hvw : v₃ = w := by simpa using h
      simp [List.lookup_cons, hk, hvw]

theorem lookup_setAssoc {α : Type} (k : String) (v : α) :
    ∀ l : List (String × α), (setAssoc k v l).lookup k = some v
  | [] => by simp [setAssoc, List.lookup_cons]
  | (k₂, v₂) :: t => by
    unfold setAssoc
    by_cases h : k₂ = k
    · simp [h, List.lookup_cons]
    · have hne : (k == k₂) = false := by
        simp [Ne.symm h]
      simp [h, List.lookup_cons, hne, lookup_setAssoc k v t]

/-! ## Codec lemmas -/

/-- Recognising the fixed-length version suffix: appending
`_v<d₁><d₂>.blend` to any base parses back to the base and the digit
value. -/
theorem parseShot_append (base : String) (d₁ d₂ : Char)
    (h₁ : d₁.isDigit = true) (h₂ : d₂.isDigit = true) :
    parseShot ⟨base.data ++ ['_', 'v', d₁, d₂, '.', 'b', 'l', 'e', 'n', 'd']⟩ =
      some (base, (d₁.toNat - 48) * 10 + (d₂.toNat - 48)) := by
  obtain ⟨l⟩ := base
  have hlen : (l ++ ['_', 'v', d₁, d₂, '.', 'b', 'l', 'e', 'n', 'd']).length - 10
      = l.length := by
    simp [List.length_append]
  unfold parseShot
  show (match (l ++ _).drop ((l ++ _).length - 10) with
    | ['_', 'v', d₁, d₂, '.', 'b', 'l', 'e', 'n', 'd'] => _ | _ => _) = _
  rw [hlen]
  rw [show (['_', 'v', d₁, d₂, '.', 'b', 'l', 'e', 'n', 'd'] : List Char)
      = ['_', 'v'] ++ [d₁] ++ [d₂] ++ ['.', 'b', 'l', 'e', 'n', 'd'] from rfl]
  rw [List.drop_left, List.take_left]
  simp [h₁, h₂]

/-- Soundness of the 2-digit rendering: for `v < 100`, `pad2 v` is two
decimal digits whose value is `v`. -/
def pad2ok (v : Nat) : Bool :=
  match (pad2 v).data with
  | [d₁, d₂] => d₁.isDigit && d₂.isDigit && ((d₁.toNat - 48) * 10 + (d₂.toNat - 48) == v)
  | _ => false

theorem pad2ok_lt100 : ∀ v : Nat, v < 100 → pad2ok v = true := by decide

theorem fmtShot_data (base : String) (v : Nat) :
    (fmtShot base v).data = base.data ++ ['_', 'v'] ++ (pad2 v).data
      ++ ['.', 'b', 'l', 'e', 'n', 'd'] := by
  simp [fmtShot, String.data_append]

/-- Round trip of the codec for versions below 100. -/
theorem parseShot_fmtShot (base : String) (v : Nat) (hv : v ≤ 99) :
    parseShot (fmtShot base v) = some (base, v) := by
  have hp : pad2ok v = true := pad2ok_lt100 v (by omega)
  unfold pad2ok at hp
  split at hp
  case _ d₁ d₂ heq =>
    simp only [Bool.and_eq_true, beq_iff_eq] at hp
    obtain ⟨⟨h₁, h₂⟩, h₃⟩ := hp
    have hfmt : fmtShot base v
        = ⟨base.data ++ ['_', 'v', d₁, d₂, '.', 'b', 'l', 'e', 'n', 'd']⟩ := by
      apply String.ext
      rw [fmtShot_data, heq]
      simp
    rw [hfmt, parseShot_append base d₁ d₂ h₁ h₂, h₃]
  case _ => exact absurd hp (by simp)

/-! ## Filter lemmas -/

theorem hasSubstring_nil : ∀ l : List Char, hasSubstring [] l = true
  | [] => rfl
  | _ :: rest => by simp [hasSubstring, List.isPrefixOf]

theorem filterLoop_eq_filter (t : String) :
    ∀ l, filterLoop t l
      = l.filter (fun s => hasSubstring t.data (pyLower s).data)
  | [] => rfl
  | s :: rest => by
    rcases h : hasSubstring t.data (pyLower s).data with _ | _ <;>
      simp [filterLoop, h, List.filter_cons, filterLoop_eq_filter t rest]

/-! ## Claims -/

/-- C1: duplicating an existing `<base>_v<NN>.blend` whose next-version
file is absent succeeds, returning the filename with the base unchanged
and version `NN + 1` rendered by the 2-digit zero-padded formatter — the
version is exactly incremented, never skipped or reused — and the new
file holds exactly the source file's bytes (the source keeps its own). -/
theorem duplicate_fresh_increments_version
    (fs : ShotDir) (f base : String) (n : Nat) (b : Bytes)
    (hparse : parseShot f = some (base, n))
    (hsrc : fs.files.lookup f = some b)
    (htgt : fs.files.lookup (fmtShot base (n + 1)) = none) :
    duplicate_shot f fs =
      (Except.ok (base ++ "_v" ++ pad2 (n + 1) ++ ".blend"),
        { fs with files := fs.files ++ [(fmtShot base (n + 1), b)] }) ∧
      (duplicate_shot f fs).2.files.lookup (fmtShot base (n + 1)) = some b ∧
      (duplicate_shot f fs).2.files.lookup f = some b := by
  have heq : duplicate_shot f fs =
      (Except.ok (fmtShot base (n + 1)),
        { fs with files := fs.files ++ [(fmtShot base (n + 1), b)] }) := by
    simp [duplicate_shot, hparse, hsrc, htgt]
  refine ⟨heq, ?_, ?_⟩
  · rw [heq]
    exact lookup_append_self _ _ _ htgt
  · rw [heq]
    exact lookup_append_other _ _ _ _ _ hsrc

theorem duplicate_fresh_increments_version_witness :
    (duplicate_shot "a_v01.blend" ⟨true, [("a_v01.blend", [7, 8])]⟩).2.files.lookup
        (fmtShot "a" 2) = some [7, 8] :=
  (duplicate_fresh_increments_version ⟨true, [("a_v01.blend", [7, 8])]⟩
    "a_v01.blend" "a" 1 [7, 8] (by decide) (by decide) (by decide)).2.1

/-- C2: when the source matches the pattern and exists but the computed
next-version file already exists, `duplicate_shot` fails with
`targetExists` — a hard stop with no forward search — and the state is
unchanged, so source and pre-existing target keep their bytes. -/
theorem duplicate_existing_target_hard_stop
    (fs : ShotDir) (f base : String) (n : Nat) (b b₂ : Bytes)
    (hparse : parseShot f = some (base, n))
    (hsrc : fs.files.lookup f = some b)
    (htgt : fs.files.lookup (fmtShot base (n + 1)) = some b₂) :
    duplicate_shot f fs = (Except.error RepoError.targetExists, fs) ∧
      (duplicate_shot f fs).2.files.lookup f = some b ∧
      (duplicate_shot f fs).2.files.lookup (fmtShot base (n + 1)) = some b₂ := by
  have heq : duplicate_shot f fs = (Except.error RepoError.targetExists, fs) := by
    simp [duplicate_shot, hparse, hsrc, htgt]
  exact ⟨heq, by rw [heq]; exact hsrc, by rw [heq]; exact htgt⟩

theorem duplicate_existing_target_hard_stop_witness :
    duplicate_shot "a_v01.blend" ⟨true, [("a_v01.blend", [1]), ("a_v02.blend", [2])]⟩
      = (Except.error RepoError.targetExists,
         ⟨true, [("a_v01.blend", [1]), ("a_v02.blend", [2])]⟩) :=
  (duplicate_existing_target_hard_stop
    ⟨true, [("a_v01.blend", [1]), ("a_v02.blend", [2])]⟩
    "a_v01.blend" "a" 1 [1] [2] (by decide) (by decide) (by decide)).1

/-- C3 counterexample: the codec does not round-trip at version 100 — the
formatter renders `a_v100.blend` (the name duplication of a `_v99` shot
would produce), and the `\d{2}` pattern rejects it. -/
theorem codec_roundtrip_fails_at_v100 :
    fmtShot "a" 100 = "a_v100.blend" ∧ parseShot (fmtShot "a" 100) = none := by
  decide

/-- C3 amended: the codec round-trips exactly on the 2-digit range — for
every base name and every version `1 ≤ v ≤ 99`, formatting then parsing
yields the pair back. -/
theorem codec_roundtrip_below_100 (base : String) (v : Nat)
    (_h₁ : 1 ≤ v) (h₂ : v ≤ 99) :
    parseShot (fmtShot base v) = some (base, v) :=
  parseShot_fmtShot base v h₂

theorem codec_roundtrip_below_100_witness :
    parseShot (fmtShot "SHOT_010" 99) = some ("SHOT_010", 99) :=
  codec_roundtrip_below_100 "SHOT_010" 99 (by decide) (by decide)

/-- Modelled from the spec's words (§4.2 `list()`), for comparison only:
the matching directory entries in filesystem-native order, unsorted. -/
def list_shots_spec_native (fs : ShotDir) : List String :=
  if fs.dirExists = false then []
  else (fs.files.map Prod.fst).filter
    (fun f => strEndsWith f ".blend" && !(strStartsWith f "cam_template_"))

/-- C4 counterexample: on a directory whose native listing order is
`b_v01.blend` then `a_v01.blend`, `list_shots` returns the two entries
lexicographically sorted, not in filesystem-native order. -/
theorem list_shots_not_native_order :
    list_shots ⟨true, [("b_v01.blend", []), ("a_v01.blend", [])]⟩
        = ["a_v01.blend", "b_v01.blend"] ∧
      list_shots_spec_native ⟨true, [("b_v01.blend", []), ("a_v01.blend", [])]⟩
        = ["b_v01.blend", "a_v01.blend"] ∧
      list_shots ⟨true, [("b_v01.blend", []), ("a_v01.blend", [])]⟩
        ≠ list_shots_spec_native ⟨true, [("b_v01.blend", []), ("a_v01.blend", [])]⟩ := by
  decide

/-- C4 amended: `list_shots` returns exactly the directory entries ending
in `.blend` and not starting with `cam_template_` — the same multiset as
the native-order listing — but sorted ascending by Python's string order
rather than in filesystem-native order; a missing directory yields the
empty sequence rather than failing. -/
theorem list_shots_sorted_filter (fs : ShotDir) :
    (fs.dirExists = false → list_shots fs = []) ∧
      List.Sorted strLePred (list_shots fs) ∧
      (list_shots fs).Perm (list_shots_spec_native fs) := by
  refine ⟨?_, ?_, ?_⟩
  · intro h
    simp [list_shots, h]
  · unfold list_shots
    by_cases h : fs.dirExists = false
    · simp [h]
    · simp only [h, Bool.false_eq_true, if_false]
      exact pySorted_sorted _
  · unfold list_shots list_shots_spec_native
    by_cases h : fs.dirExists = false
    · simp [h]
    · simp only [h, Bool.false_eq_true, if_false]
      exact pySorted_perm _

theorem list_shots_sorted_filter_witness :
    list_shots ⟨false, []⟩ = [] ∧
      (list_shots ⟨true, [("b_v01.blend", []), ("a_v01.blend", [])]⟩).Perm
        (list_shots_spec_native ⟨true, [("b_v01.blend", []), ("a_v01.blend", [])]⟩) :=
  ⟨(list_shots_sorted_filter ⟨false, []⟩).1 rfl,
   (list_shots_sorted_filter ⟨true, [("b_v01.blend", []), ("a_v01.blend", [])]⟩).2.2⟩

/-- C5: creating a fresh shot marks the directory as existing, writes
`<base>_v01.blend` with the placeholder payload, returns that filename,
and parsing the returned filename yields `(base, 1)` — for every
non-empty base name, including ones that themselves end in a `_vNN`
suffix. -/
theorem create_then_parse (fs : ShotDir) (base : String)
    (_hbase : base ≠ "")
    (hfree : fs.files.lookup (base ++ "_v01.blend") = none) :
    create_new_shot base fs =
      (Except.ok (base ++ "_v01.blend"),
        { dirExists := true,
          files := fs.files ++ [(base ++ "_v01.blend", PLACEHOLDER)] }) ∧
      parseShot (base ++ "_v01.blend") = some (base, 1) := by
  constructor
  · simp [create_new_shot, hfree]
  · have hstr : base ++ "_v01.blend"
        = ⟨base.data ++ ['_', 'v', '0', '1', '.', 'b', 'l', 'e', 'n', 'd']⟩ := by
      apply String.ext
      rw [String.data_append]
    have h2 := parseShot_append base '0' '1' (by decide) (by decide)
    have hv : ('0'.toNat - 48) * 10 + ('1'.toNat - 48) = 1 := by decide
    rw [hstr, h2, hv]

theorem create_then_parse_witness :
    parseShot ("x_v02" ++ "_v01.blend") = some ("x_v02", 1) :=
  (create_then_parse ⟨false, []⟩ "x_v02" (by decide) (by decide)).2

/-- C6: a filename rejected by the versioning pattern makes
`duplicate_shot` fail with `invalidName` and leave the directory state
exactly as it was, whatever files exist — the pattern check precedes any
existence check or copy. -/
theorem duplicate_invalid_name_no_mutation (fs : ShotDir) (f : String)
    (h : parseShot f = none) :
    duplicate_shot f fs = (Except.error RepoError.invalidName, fs) := by
  simp [duplicate_shot, h]

theorem duplicate_invalid_name_no_mutation_witness :
    duplicate_shot "badname.blend" ⟨true, [("a_v01.blend", [1])]⟩
      = (Except.error RepoError.invalidName, ⟨true, [("a_v01.blend", [1])]⟩) :=
  duplicate_invalid_name_no_mutation ⟨true, [("a_v01.blend", [1])]⟩
    "badname.blend" (by decide)

/-- C7: metadata round-trip — saving any record (the recognized fields
plus arbitrary extra string fields) under a key and loading that key
returns the record unchanged. -/
theorem metadata_roundtrip (st : MetaStore) (key : String) (R : Record) :
    load_custom_metadata (save_custom_metadata st key R) key = R := by
  unfold load_custom_metadata save_custom_metadata
  rw [lookup_setAssoc]

/-- C8: every cli.py command calls its core.py operation with fewer
positional arguments than the function requires (the `shot_directory`
parameter is never supplied), so each invocation raises `TypeError`
before the repository operation runs. -/
theorem cli_calls_raise_type_error :
    callRaisesTypeError "create_new_shot" = true ∧
      callRaisesTypeError "list_shots" = true ∧
      callRaisesTypeError "duplicate_shot" = true ∧
      callRaisesTypeError "delete_shot" = true := by
  decide

/-- C9: filtering is a pure narrowing — the result equals the filter of
the listing, hence is a subsequence (same relative order, no additions)
containing exactly the entries whose lowercased name contains the
lowercased term, and the empty term returns the listing itself. -/
theorem filter_narrowing (l : List String) (t : String) :
    filter_shots l t
        = l.filter (fun s => hasSubstring (pyLower t).data (pyLower s).data) ∧
      (filter_shots l t).Sublist l ∧
      (∀ s, s ∈ filter_shots l t
        ↔ s ∈ l ∧ hasSubstring (pyLower t).data (pyLower s).data = true) ∧
      (t = "" → filter_shots l t = l) := by
  have h1 : filter_shots l t
      = l.filter (fun s => hasSubstring (pyLower t).data (pyLower s).data) :=
    filterLoop_eq_filter (pyLower t) l
  refine ⟨h1, ?_, ?_, ?_⟩
  · rw [h1]
    exact List.filter_sublist l
  · intro s
    rw [h1]
    exact List.mem_filter
  · intro ht
    subst ht
    rw [h1]
    apply List.filter_eq_self.mpr
    intro s hs
    exact hasSubstring_nil _

theorem filter_narrowing_witness :
    filter_shots ["Cam_A.blend", "other.blend"] "" = ["Cam_A.blend", "other.blend"] :=
  (filter_narrowing ["Cam_A.blend", "other.blend"] "").2.2.2 rfl

/-- C10: the corrupt-metadata test is key-based — a well-formed saved
record carrying an extra `"error"` field loads back intact, yet the
`"error" in meta` check of `edit_custom_metadata_for_selected` classifies
it exactly as it classifies the sentinel produced for malformed content,
so editing is refused for a valid backing file. -/
theorem error_key_record_classified_corrupt :
    load_custom_metadata
        (save_custom_metadata ⟨[]⟩ "SHOT_010_v01.blend"
          [("status", "WIP"), ("error", "see notes")])
        "SHOT_010_v01.blend"
      = [("status", "WIP"), ("error", "see notes")] ∧
      metaHasErrorKey [("status", "WIP"), ("error", "see notes")] = true ∧
      metaHasErrorKey corruptSentinel = true := by
  decide

end ShotMan
